import Mathlib

/-!
Verification of the outbound-HTTP execution layer in httpx/http.go: the
retry/access execution loop (functions do, Do, DoTrace), the bounded body
reader (readBody, dumpResponse) and the trace sanitization pipeline
(SanitizedRequest, SanitizedResponse, santizedTrace, replaceNullChars),
together with byte-level models of the Go library functions they call
(utf8.Valid, bytes.ToValidUTF8, bytes.ReplaceAll on a single byte,
bytes.SplitN with count 2).

Byte sequences (Go byte slices and Go strings, which are byte sequences)
are modelled as List Nat, one entry per byte. Go error values are
identified with their message strings. The response body is a stream that
must be closed by its reader, so each response carries a stream id and a
World value logs which streams the requestor handed out (opened) and which
were closed; the executor's own code never touches the log except where
the Go code opens or closes a body.
-/

namespace Httpx

/-- Go error values, identified by their message string. -/
abbrev GoError := String

/-- an outgoing HTTP request, reduced to the parts the httpx code
inspects: the method (context only) and request.URL.Hostname(), which the
denial message interpolates. -/
structure Request where
  method : String
  hostname : String
deriving DecidableEq

/-- an HTTP response as the httpx code sees it: the status code, the body
byte stream, and the id of the body stream (so the closing discipline is
observable). -/
structure Response where
  statusCode : Nat
  body : List Nat
  bodyId : Nat
deriving DecidableEq

/-- decidable equality for Go call results, so that concrete runs can be
checked by evaluation. -/
instance : DecidableEq (Except GoError Response) := fun a b =>
  match a, b with
  | .ok x, .ok y =>
    if h : x = y then isTrue (by rw [h]) else isFalse (by simp [h])
  | .error x, .error y =>
    if h : x = y then isTrue (by rw [h]) else isFalse (by simp [h])
  | .ok _, .error _ => isFalse (fun hc => Except.noConfusion hc)
  | .error _, .ok _ => isFalse (fun hc => Except.noConfusion hc)

/-- an observation log for response body streams: ids of bodies the
requestor handed out, and ids of bodies that have been closed. -/
structure World where
  opened : List Nat
  closed : List Nat
deriving DecidableEq

/-- the empty observation log. -/
def emptyWorld : World := { opened := [], closed := [] }

/-- Modelled from the spec: the RetryConfig capability of section 4.4
(its concrete definition lives outside the execution core), exposing
MaxRetries, Backoff (a duration, in nanoseconds) and ShouldRetry exactly
as the executor consumes them. ShouldRetry receives the response pointer,
which is nil after a transport error. -/
structure RetryConfig where
  maxRetries : Nat
  backoff : Nat → Nat
  shouldRetry : Request → Option Response → Nat → Bool

/-- Modelled from the spec: the AccessConfig capability of section 4.5, a
single Allow operation returning a permission bit and an optional
evaluation error, exactly as the executor consumes it. -/
structure AccessConfig where
  allow : Request → Bool × Option GoError

/-- the external collaborators of one call: the requestor (indexed by the
attempt number, which lets a stateful test double be modelled as a pure
function), the stdlib dump functions httputil.DumpRequestOut and
httputil.DumpResponse with body=false, and the two clock readings
dates.Now() takes during DoTrace. -/
structure Env where
  requestor : Nat → Except GoError Response
  dumpRequestOut : Request → Except GoError (List Nat)
  dumpResponseHead : Response → Except GoError (List Nat)
  now0 : Nat
  now1 : Nat

/-- the response pointer a Go caller observes from a (response, error)
pair: nil exactly on a transport error. -/
def respOf : Except GoError Response → Option Response
  | .ok r => some r
  | .error _ => none

/-- records the body stream of a dispatched response as opened; a failed
dispatch hands out no body. -/
def recordOpen (result : Except GoError Response) (w : World) : World :=
  match result with
  | .ok r => { w with opened := w.opened ++ [r.bodyId] }
  | .error _ => w

/-- the denial error message of function do (http.go line 32). -/
def deniedMsg (host : String) : String :=
  "request to " ++ host ++ " denied"

/-- the size-exceeded error message of readBody (http.go line 197). -/
def exceedsMsg (maxBodyBytes : Int) : String :=
  "webhook response body exceeds " ++ toString maxBodyBytes ++ " bytes limit"

/-- the retry loop of function do (http.go lines 40-54). The counter
remaining equals retries.MaxRetries() - retry, so remaining > 0 is exactly
the Go guard retry < retries.MaxRetries(); both step together. Returns the
(response, error) outcome, the final value of retry, the number of
requestor invocations made, and the body log. The backoff sleep is a pure
delay with no observable effect in the model. -/
def doLoopAux (env : Env) (request : Request) (cfg : RetryConfig) :
    Nat → Nat → World → Except GoError Response × Nat × Nat × World
  | remaining, retry, w =>
    let result := env.requestor retry
    let w1 := recordOpen result w
    match remaining with
    | 0 => (result, retry, 1, w1)
    | r + 1 =>
      let backoff := cfg.backoff retry
      if cfg.shouldRetry request (respOf result) backoff then
        let out := doLoopAux env request cfg r (retry + 1) w1
        (out.1, out.2.1, out.2.2.1 + 1, out.2.2.2)
      else
        (result, retry, 1, w1)

/-- the dispatch part of function do: with a nil retry config the loop
body runs once and breaks; otherwise the bounded loop runs starting at
retry = 0. -/
def doDispatch (env : Env) (request : Request) :
    Option RetryConfig → World → Except GoError Response × Nat × Nat × World
  | some cfg, w => doLoopAux env request cfg cfg.maxRetries 0 w
  | none, w =>
    let result := env.requestor 0
    (result, 0, 1, recordOpen result w)

/-- function do (http.go lines 25-57): evaluate the access policy when one
is supplied (an evaluation error propagates, a false verdict produces the
denial error naming the hostname, both before any dispatch), then run the
dispatch/retry loop. Returns (response-or-error, final retry count,
requestor invocations, body log). -/
def doCall (env : Env) (request : Request) (retries : Option RetryConfig)
    (access : Option AccessConfig) (w : World) :
    Except GoError Response × Nat × Nat × World :=
  match access with
  | some ac =>
    let ar := ac.allow request
    match ar.2 with
    | some e => (.error e, 0, 0, w)
    | none =>
      if ar.1 = false then
        (.error (deniedMsg request.hostname), 0, 0, w)
      else
        doDispatch env request retries w
  | none => doDispatch env request retries w

/-- Do (http.go lines 20-23): runs do and drops the retry count. The
invocation count and the body log are kept as observations. -/
def Do (env : Env) (request : Request) (retries : Option RetryConfig)
    (access : Option AccessConfig) (w : World) :
    Except GoError Response × Nat × World :=
  let out := doCall env request retries access w
  (out.1, out.2.2.1, out.2.2.2)

/-- Trace (http.go lines 60-69), with the Go field names in lowercase.
The response field is an Option because it stays nil until the call
succeeds; byte-slice fields default to the empty sequence (nil slice). -/
structure Trace where
  request : Option Request
  requestTrace : List Nat
  response : Option Response
  responseTrace : List Nat
  responseBody : List Nat
  startTime : Nat
  endTime : Nat
  retries : Nat
deriving DecidableEq

/-- readBody (http.go lines 183-205). The deferred response.Body.Close()
runs on every exit path and is modelled by logging the body id as closed
up front. io.LimitReader with limit maxBodyBytes+1 yields the first
maxBodyBytes+1 bytes of the body; after io.ReadAll its remaining count N
is maxBodyBytes + 1 - (bytes read), and N <= 0 signals that the body was
over the limit. -/
def readBody (response : Response) (maxBodyBytes : Int) (w : World) :
    Except GoError (List Nat) × World :=
  let w1 : World := { w with closed := w.closed ++ [response.bodyId] }
  if 0 < maxBodyBytes then
    let bodyBytes := response.body.take (maxBodyBytes.toNat + 1)
    let n : Int := maxBodyBytes + 1 - bodyBytes.length
    if n ≤ 0 then
      (.error (exceedsMsg maxBodyBytes), w1)
    else
      (.ok bodyBytes, w1)
  else
    (.ok response.body, w1)

/-- dumpResponse (http.go lines 168-180): dump the header section, then
read the body through the bounded reader; on a body error the header dump
is still returned (with a nil body), on a header-dump error nothing is. -/
def dumpResponse (env : Env) (response : Response) (maxBodyBytes : Int)
    (w : World) : List Nat × List Nat × Option GoError × World :=
  match env.dumpResponseHead response with
  | .error e => ([], [], some e, w)
  | .ok responseTrace =>
    match readBody response maxBodyBytes w with
    | (.error e, w1) => (responseTrace, [], some e, w1)
    | (.ok responseBody, w1) => (responseTrace, responseBody, none, w1)

/-- DoTrace (http.go lines 125-152): dump the outgoing request (a dump
failure returns a nil trace and the error before any dispatch), run do,
record end time and retry count, and on success capture the response
header dump and the bounded body, returning the partially populated trace
alongside any error. Returns the trace, the error, the number of requestor
invocations and the final body log. -/
def DoTrace (env : Env) (request : Request) (retries : Option RetryConfig)
    (access : Option AccessConfig) (maxBodyBytes : Int) (w : World) :
    Option Trace × Option GoError × Nat × World :=
  match env.dumpRequestOut request with
  | .error e => (none, some e, 0, w)
  | .ok requestTrace =>
    let out := doCall env request retries access w
    let trace0 : Trace :=
      { request := some request, requestTrace := requestTrace,
        response := none, responseTrace := [], responseBody := [],
        startTime := env.now0, endTime := env.now1, retries := out.2.1 }
    match out.1 with
    | .error e => (some trace0, some e, out.2.2.1, out.2.2.2)
    | .ok response =>
      let d := dumpResponse env response maxBodyBytes out.2.2.2
      let trace1 : Trace :=
        { trace0 with response := some response,
                      responseTrace := d.1, responseBody := d.2.1 }
      match d.2.2.1 with
      | some e => (some trace1, some e, out.2.2.1, d.2.2.2)
      | none => (some trace1, none, out.2.2.1, d.2.2.2)

/-- a UTF-8 continuation byte, 0x80 to 0xBF. -/
def cont (b : Nat) : Bool := 128 ≤ b && b ≤ 191

/-- lower bound of the accepted second byte after a three-byte leader, per
the Go utf8 accept ranges: leader 0xE0 starts at 0xA0 (no overlong
encodings), all other three-byte leaders at 0x80. -/
def lo3 (b0 : Nat) : Nat := if b0 = 224 then 160 else 128

/-- upper bound of the accepted second byte after a three-byte leader:
leader 0xED stops at 0x9F (no surrogates), the rest at 0xBF. -/
def hi3 (b0 : Nat) : Nat := if b0 = 237 then 159 else 191

/-- accepted second byte after a three-byte leader. -/
def cont2 (b0 b1 : Nat) : Bool := lo3 b0 ≤ b1 && b1 ≤ hi3 b0

/-- lower bound of the accepted second byte after a four-byte leader:
leader 0xF0 starts at 0x90 (no overlong encodings), the rest at 0x80. -/
def lo4 (b0 : Nat) : Nat := if b0 = 240 then 144 else 128

/-- upper bound of the accepted second byte after a four-byte leader:
leader 0xF4 stops at 0x8F (nothing above U+10FFFF), the rest at 0xBF. -/
def hi4 (b0 : Nat) : Nat := if b0 = 244 then 143 else 191

/-- accepted second byte after a four-byte leader. -/
def cont4 (b0 b1 : Nat) : Bool := lo4 b0 ≤ b1 && b1 ≤ hi4 b0

/-- lookahead test: the tail continues a two-byte encoding. -/
def acc2 : List Nat → Bool
  | b1 :: _ => cont b1
  | [] => false

/-- lookahead test: the tail continues a three-byte encoding whose leader
is b0. -/
def acc3 (b0 : Nat) : List Nat → Bool
  | b1 :: b2 :: _ => cont2 b0 b1 && cont b2
  | _ => false

/-- lookahead test: the tail continues a four-byte encoding whose leader
is b0. -/
def acc4 (b0 : Nat) : List Nat → Bool
  | b1 :: b2 :: b3 :: _ => cont4 b0 b1 && cont b2 && cont b3
  | _ => false

/-- worker of utf8.Valid. At a rune boundary (k = 0) it classifies the
next byte with the Go accept table (one-byte 0x00-0x7F; two-byte leaders
0xC2-0xDF; three-byte leaders 0xE0-0xEF and four-byte leaders 0xF0-0xF4
with their restricted second-byte ranges; each further byte a continuation
byte), checking the whole encoding at once via the lookahead, exactly as
Go checks all size bytes before advancing i by size; k > 0 means k bytes
of the already-checked encoding are still to be stepped over. -/
def utf8ValidAux : List Nat → Nat → Bool
  | [], k => k == 0
  | _ :: tl, k + 1 => utf8ValidAux tl k
  | b0 :: tl, 0 =>
    if b0 ≤ 127 then utf8ValidAux tl 0
    else if 194 ≤ b0 ∧ b0 ≤ 223 ∧ acc2 tl then utf8ValidAux tl 1
    else if 224 ≤ b0 ∧ b0 ≤ 239 ∧ acc3 b0 tl then utf8ValidAux tl 2
    else if 240 ≤ b0 ∧ b0 ≤ 244 ∧ acc4 b0 tl then utf8ValidAux tl 3
    else false

/-- utf8.Valid on a byte sequence. -/
def utf8Valid (l : List Nat) : Bool := utf8ValidAux l 0

/-- the UTF-8 encoding of the replacement character U+FFFD, which the Go
code writes as a literal inside santizedTrace and replaceNullChars. -/
def replacementChar : List Nat := [239, 191, 189]

/-- worker of bytes.ToValidUTF8(s, repl) (called by santizedTrace): copy
ASCII bytes and well-formed multi-byte encodings through, and collapse
every maximal run of bytes on which utf8.DecodeRune fails (width 1) into
a single copy of repl. At a rune boundary (k = 0) the branch conditions
are the utf8.DecodeRune accept ranges, the same table utf8ValidAux uses;
a whole encoding is validated at once by the lookahead and its k
remaining bytes are then copied verbatim one per step, exactly as Go
copies s[i:i+wid] after DecodeRune succeeds. The invalid flag tracks
whether the previous byte was part of a bad run, so that the run yields
one single replacement. -/
def toValidUTF8Go (repl : List Nat) : List Nat → Nat → Bool → List Nat
  | [], _, _ => []
  | b :: tl, k + 1, _ => b :: toValidUTF8Go repl tl k false
  | b0 :: tl, 0, invalid =>
    if b0 ≤ 127 then b0 :: toValidUTF8Go repl tl 0 false
    else if 194 ≤ b0 ∧ b0 ≤ 223 ∧ acc2 tl then b0 :: toValidUTF8Go repl tl 1 false
    else if 224 ≤ b0 ∧ b0 ≤ 239 ∧ acc3 b0 tl then b0 :: toValidUTF8Go repl tl 2 false
    else if 240 ≤ b0 ∧ b0 ≤ 244 ∧ acc4 b0 tl then b0 :: toValidUTF8Go repl tl 3 false
    else if invalid then toValidUTF8Go repl tl 0 true
    else repl ++ toValidUTF8Go repl tl 0 true

/-- bytes.ToValidUTF8 with the argument order of the Go call site. -/
def toValidUTF8 (s repl : List Nat) : List Nat :=
  toValidUTF8Go repl s 0 false

/-- replaceNullChars (http.go lines 120-122): bytes.ReplaceAll(b,
[]byte 0, replacement character), i.e. every 0x00 byte becomes the
three-byte replacement character. -/
def replaceNullChars : List Nat → List Nat
  | [] => []
  | b :: tl =>
    if b = 0 then 239 :: 191 :: 189 :: replaceNullChars tl
    else b :: replaceNullChars tl

/-- santizedTrace (http.go lines 104-118): coerce the header section to
valid UTF-8 and replace its null bytes; include the body verbatim with
nulls replaced when it is valid UTF-8, else substitute the caller's
placeholder. -/
def santizedTrace (header body bodyPlaceHolder : List Nat) : List Nat :=
  replaceNullChars (toValidUTF8 header replacementChar) ++
    (if utf8Valid body then replaceNullChars body else bodyPlaceHolder)

/-- the blank-line separator between HTTP headers and body, CR LF CR LF. -/
def crlfcrlf : List Nat := [13, 10, 13, 10]

/-- bytes.SplitN(s, CRLFCRLF, 2): scan left to right for the first
position where the four separator bytes occur; return the part before
that position and the part after the separator, or the whole input and no
second part when the separator never occurs. -/
def splitN2crlf : List Nat → List Nat × Option (List Nat)
  | [] => ([], none)
  | b :: rest =>
    if b = 13 ∧ rest.take 3 = [10, 13, 10] then ([], some (rest.drop 3))
    else
      let out := splitN2crlf rest
      (b :: out.1, out.2)

/-- SanitizedRequest (http.go lines 83-96): split the request dump at the
first blank line, re-attach the separator to the header part (the Go code
appends it unconditionally), take the remainder as the body (nil when no
separator was found) and sanitize. -/
def Trace.SanitizedRequest (t : Trace) (placeholder : List Nat) : List Nat :=
  let parts := splitN2crlf t.requestTrace
  let headers := parts.1 ++ crlfcrlf
  let body := match parts.2 with
    | some b => b
    | none => []
  santizedTrace headers body placeholder

/-- SanitizedResponse (http.go lines 100-102): the header dump and the
body were captured separately, so no split is needed. -/
def Trace.SanitizedResponse (t : Trace) (placeholder : List Nat) : List Nat :=
  santizedTrace t.responseTrace t.responseBody placeholder

/-- the 200 response returned by the third attempt of the retry scenario
in section 8 of the spec. -/
def resp200 : Response := { statusCode := 200, body := [111, 107], bodyId := 2 }

/-- the transport error of the retry scenario. -/
def connRefused : GoError := "connection refused"

/-- a requestor that fails with a transport error on the first two
attempts and then returns the 200 response. -/
def flakyRequestor : Nat → Except GoError Response :=
  fun n => if n < 2 then .error connRefused else .ok resp200

/-- environment for the concrete retry scenario. -/
def retryEnv : Env :=
  { requestor := flakyRequestor,
    dumpRequestOut := fun _ => .ok [],
    dumpResponseHead := fun _ => .ok [],
    now0 := 0, now1 := 1 }

/-- retry twice, no backoff; retry exactly on transport errors and not on
a 200 response. -/
def retryTwice : RetryConfig :=
  { maxRetries := 2, backoff := fun _ => 0,
    shouldRetry := fun _ r _ =>
      match r with
      | none => true
      | some resp => !(resp.statusCode = 200 : Bool) }

/-- the request used by the concrete scenarios. -/
def getReq : Request := { method := "GET", hostname := "example.com" }

/-- first attempt of the leaked-body scenario: a 500 response whose body
stream has id 0. -/
def resp500 : Response := { statusCode := 500, body := [101, 114, 114], bodyId := 0 }

/-- second attempt of the leaked-body scenario: a 200 response whose body
stream has id 1. -/
def resp200b : Response := { statusCode := 200, body := [111, 107], bodyId := 1 }

/-- a requestor returning the 500 response on the first attempt and the
200 response afterwards. -/
def leakRequestor : Nat → Except GoError Response :=
  fun n => if n = 0 then .ok resp500 else .ok resp200b

/-- environment for the leaked-body scenario. -/
def leakEnv : Env :=
  { requestor := leakRequestor,
    dumpRequestOut := fun _ => .ok [65],
    dumpResponseHead := fun _ => .ok [72],
    now0 := 3, now1 := 7 }

/-- retry once, no backoff, retrying past every 5xx response. -/
def retry5xx : RetryConfig :=
  { maxRetries := 1, backoff := fun _ => 0,
    shouldRetry := fun _ r _ =>
      match r with
      | none => true
      | some resp => decide (500 ≤ resp.statusCode) }

/-- a trace whose response body starts like a PNG image (0x89 0x50), which
is not valid UTF-8; its header dump is plain ASCII text. -/
def binTrace : Trace :=
  { request := none, requestTrace := [], response := none,
    responseTrace := [72, 84, 84, 80, 13, 10, 13, 10],
    responseBody := [137, 80, 78, 71],
    startTime := 0, endTime := 0, retries := 0 }

/-- an 11-byte response body used by the size-limit scenario. -/
def resp11 : Response :=
  { statusCode := 200, body := [0, 1, 2, 3, 4, 5, 6, 7, 8, 9, 10], bodyId := 5 }

/-- environment returning the 11-byte response on every attempt. -/
def bigBodyEnv : Env :=
  { requestor := fun _ => .ok resp11,
    dumpRequestOut := fun _ => .ok [82],
    dumpResponseHead := fun _ => .ok [72, 13, 10],
    now0 := 1, now1 := 2 }

/-- the dump failure used by the nil-trace scenario. -/
def dumpErr : GoError := "unable to dump request"

/-- environment whose outgoing-request dump fails. -/
def dumpFailEnv : Env :=
  { requestor := fun _ => .ok resp200,
    dumpRequestOut := fun _ => .error dumpErr,
    dumpResponseHead := fun _ => .ok [],
    now0 := 0, now1 := 0 }

/-- a trace whose captured bytes are plain ASCII text with no nulls; its
request dump contains the blank-line separator. -/
def cleanTrace : Trace :=
  { request := none,
    requestTrace := [71, 69, 84, 13, 10, 13, 10, 104, 105],
    response := none,
    responseTrace := [79, 75],
    responseBody := [104, 105],
    startTime := 0, endTime := 0, retries := 0 }

/-- an access policy denying every request. -/
def denyAll : AccessConfig := { allow := fun _ => (false, none) }

/-- the evaluation error of the failing access policy. -/
def dnsErr : GoError := "lookup failed"

/-- an access policy whose evaluation itself fails. -/
def brokenAccess : AccessConfig := { allow := fun _ => (true, some dnsErr) }

/-- a well-formed-UTF-8 byte sequence, as a grammar: a concatenation of
one-byte to four-byte encodings drawn from the same accept table that
utf8Valid checks. This inductive view drives the structural proofs; the
lemma utf8Valid_iff connects it to the executable checker. -/
inductive ValidUTF8 : List Nat → Prop
  | nil : ValidUTF8 []
  | one {b0 : Nat} {tl : List Nat} :
      b0 ≤ 127 → ValidUTF8 tl → ValidUTF8 (b0 :: tl)
  | two {b0 b1 : Nat} {tl : List Nat} :
      194 ≤ b0 → b0 ≤ 223 → cont b1 = true → ValidUTF8 tl →
      ValidUTF8 (b0 :: b1 :: tl)
  | three {b0 b1 b2 : Nat} {tl : List Nat} :
      224 ≤ b0 → b0 ≤ 239 → cont2 b0 b1 = true → cont b2 = true →
      ValidUTF8 tl → ValidUTF8 (b0 :: b1 :: b2 :: tl)
  | four {b0 b1 b2 b3 : Nat} {tl : List Nat} :
      240 ≤ b0 → b0 ≤ 244 → cont4 b0 b1 = true → cont b2 = true →
      cont b3 = true → ValidUTF8 tl → ValidUTF8 (b0 :: b1 :: b2 :: b3 :: tl)

/-! Executor lemmas: invocation counting and the readBody boundary. -/

theorem doLoopAux_count (env : Env) (req : Request) (cfg : RetryConfig) :
    ∀ (remaining retry : Nat) (w : World),
      1 ≤ (doLoopAux env req cfg remaining retry w).2.2.1
        ∧ (doLoopAux env req cfg remaining retry w).2.2.1 ≤ remaining + 1
        ∧ (doLoopAux env req cfg remaining retry w).2.1 + 1
            = retry + (doLoopAux env req cfg remaining retry w).2.2.1 := by
  intro remaining
  induction remaining with
  | zero =>
    intro retry w
    simp [doLoopAux]
  | succ r ih =>
    intro retry w
    simp only [doLoopAux]
    split
    · have h := ih (retry + 1) (recordOpen (env.requestor retry) w)
      simp only []
      omega
    · simp

theorem readBody_ok_of_le (resp : Response) (maxB : Int) (w : World)
    (h1 : 0 < maxB) (h2 : (resp.body.length : Int) ≤ maxB) :
    readBody resp maxB w
      = (.ok resp.body, { w with closed := w.closed ++ [resp.bodyId] }) := by
  have hlen : resp.body.length ≤ maxB.toNat + 1 := by omega
  simp only [readBody, if_pos h1, List.take_of_length_le hlen]
  rw [if_neg (by omega)]

theorem readBody_err_of_gt (resp : Response) (maxB : Int) (w : World)
    (h1 : 0 < maxB) (h2 : maxB + 1 ≤ (resp.body.length : Int)) :
    readBody resp maxB w
      = (.error (exceedsMsg maxB), { w with closed := w.closed ++ [resp.bodyId] }) := by
  have hlen : (resp.body.take (maxB.toNat + 1)).length = maxB.toNat + 1 := by
    rw [List.length_take]
    omega
  simp only [readBody, if_pos h1, hlen]
  rw [if_pos (by omega)]

theorem readBody_ok_of_nonpos (resp : Response) (maxB : Int) (w : World)
    (h1 : ¬ 0 < maxB) :
    readBody resp maxB w
      = (.ok resp.body, { w with closed := w.closed ++ [resp.bodyId] }) := by
  simp only [readBody, if_neg h1]

/-- C1: when the access policy denies the request the executor fails
before any dispatch: do, Do and DoTrace return the denial error naming the
target host, the requestor is never invoked (the invocation count is 0 and
no body stream is handed out), and the reported retry count is 0; an error
from Allow itself propagates immediately with the same no-dispatch
guarantee. -/
theorem access_denied_fails_fast (env : Env) (req : Request)
    (rc : Option RetryConfig) (ac : AccessConfig) (w : World) :
    (ac.allow req = (false, none) →
      doCall env req rc (some ac) w
          = (.error (deniedMsg req.hostname), 0, 0, w)
        ∧ Do env req rc (some ac) w = (.error (deniedMsg req.hostname), 0, w)
        ∧ ∀ (maxB : Int) (rt : List Nat), env.dumpRequestOut req = .ok rt →
            DoTrace env req rc (some ac) maxB w
              = (some { request := some req, requestTrace := rt,
                        response := none, responseTrace := [], responseBody := [],
                        startTime := env.now0, endTime := env.now1, retries := 0 },
                 some (deniedMsg req.hostname), 0, w))
    ∧ (∀ (b : Bool) (e : GoError), ac.allow req = (b, some e) →
        doCall env req rc (some ac) w = (.error e, 0, 0, w)) := by
  constructor
  · intro h
    refine ⟨by simp [doCall, h], by simp [Do, doCall, h], ?_⟩
    intro maxB rt hd
    simp [DoTrace, hd, doCall, h]
  · intro b e h
    simp [doCall, h]

theorem access_denied_fails_fast_witness :
    denyAll.allow getReq = (false, none)
      ∧ doCall retryEnv getReq none (some denyAll) emptyWorld
          = (.error (deniedMsg getReq.hostname), 0, 0, emptyWorld)
      ∧ brokenAccess.allow getReq = (true, some dnsErr)
      ∧ doCall retryEnv getReq none (some brokenAccess) emptyWorld
          = (.error dnsErr, 0, 0, emptyWorld) := by
  refine ⟨rfl, ?_, rfl, ?_⟩
  · exact ((access_denied_fails_fast retryEnv getReq none denyAll emptyWorld).1 rfl).1
  · exact (access_denied_fails_fast retryEnv getReq none brokenAccess emptyWorld).2 true dnsErr rfl

/-- C2: with a retry config whose MaxRetries is N, one call invokes the
requestor at most N+1 times (also when run through DoTrace), and whenever
at least one dispatch happened the reported retry count equals the number
of invocations minus one; concretely, the requestor that fails with a
transport error twice and then returns 200, run under max retries 2 and a
predicate retrying transport errors but not a 200 response, yields the 200
response with retries = 2 after 3 invocations. -/
theorem retry_count_matches_invocations (env : Env) (req : Request)
    (cfg : RetryConfig) (access : Option AccessConfig) (w : World) :
    ((doCall env req (some cfg) access w).2.2.1 ≤ cfg.maxRetries + 1
      ∧ (1 ≤ (doCall env req (some cfg) access w).2.2.1 →
          (doCall env req (some cfg) access w).2.1
            = (doCall env req (some cfg) access w).2.2.1 - 1)
      ∧ ∀ maxB : Int,
          (DoTrace env req (some cfg) access maxB w).2.2.1 ≤ cfg.maxRetries + 1)
    ∧ doCall retryEnv getReq (some retryTwice) none emptyWorld
        = (.ok resp200, 2, 3, { opened := [2], closed := [] }) := by
  have hloop := doLoopAux_count env req cfg cfg.maxRetries 0 w
  have hcall :
      (doCall env req (some cfg) access w).2.2.1 ≤ cfg.maxRetries + 1
        ∧ (1 ≤ (doCall env req (some cfg) access w).2.2.1 →
            (doCall env req (some cfg) access w).2.1
              = (doCall env req (some cfg) access w).2.2.1 - 1) := by
    match access with
    | none =>
      simp only [doCall, doDispatch]
      omega
    | some ac =>
      simp only [doCall]
      match h : (ac.allow req).2 with
      | some e => simp
      | none =>
        cases hb : (ac.allow req).1
        · simp
        · rw [if_neg (by simp)]
          simp only [doDispatch]
          omega
  refine ⟨⟨hcall.1, hcall.2, ?_⟩, by decide⟩
  intro maxB
  have h1 := hcall.1
  rcases hd : env.dumpRequestOut req with e | rt
  · simp [DoTrace, hd]
  · simp only [DoTrace, hd]
    rcases hout : (doCall env req (some cfg) access w).1 with e | resp
    · simpa [hout] using h1
    · rcases hdd : (dumpResponse env resp maxB
          (doCall env req (some cfg) access w).2.2.2).2.2.1 with _ | e
      · simpa [hout, hdd] using h1
      · simpa [hout, hdd] using h1

theorem retry_count_matches_invocations_witness :
    (doCall retryEnv getReq (some retryTwice) none emptyWorld).2.2.1
        ≤ retryTwice.maxRetries + 1
      ∧ 1 ≤ (doCall retryEnv getReq (some retryTwice) none emptyWorld).2.2.1
      ∧ (doCall retryEnv getReq (some retryTwice) none emptyWorld).2.1
          = (doCall retryEnv getReq (some retryTwice) none emptyWorld).2.2.1 - 1 := by
  have h := retry_count_matches_invocations retryEnv getReq retryTwice none emptyWorld
  exact ⟨h.1.1, by decide, h.1.2.1 (by decide)⟩

/-- C3: for a positive limit, readBody returns a body of exactly
maxBodyBytes bytes in full, and fails with the size-exceeded error naming
the limit (returning no body bytes) whenever the body has at least
maxBodyBytes + 1 bytes; for a non-positive limit any body is returned in
full. On every one of these paths the body stream is closed. -/
theorem readBody_boundary (resp : Response) (maxB : Int) (w : World) :
    (0 < maxB → (resp.body.length : Int) = maxB →
        readBody resp maxB w
          = (.ok resp.body, { w with closed := w.closed ++ [resp.bodyId] }))
    ∧ (0 < maxB → maxB + 1 ≤ (resp.body.length : Int) →
        readBody resp maxB w
          = (.error (exceedsMsg maxB), { w with closed := w.closed ++ [resp.bodyId] }))
    ∧ (maxB ≤ 0 →
        readBody resp maxB w
          = (.ok resp.body, { w with closed := w.closed ++ [resp.bodyId] })) := by
  refine ⟨fun h1 h2 => readBody_ok_of_le resp maxB w h1 (le_of_eq h2),
          fun h1 h2 => readBody_err_of_gt resp maxB w h1 h2,
          fun h1 => readBody_ok_of_nonpos resp maxB w (by omega)⟩

theorem readBody_boundary_witness :
    readBody resp500 3 emptyWorld
        = (.ok resp500.body, { emptyWorld with closed := emptyWorld.closed ++ [resp500.bodyId] })
      ∧ readBody resp500 2 emptyWorld
          = (.error (exceedsMsg 2), { emptyWorld with closed := emptyWorld.closed ++ [resp500.bodyId] })
      ∧ readBody resp500 0 emptyWorld
          = (.ok resp500.body, { emptyWorld with closed := emptyWorld.closed ++ [resp500.bodyId] }) :=
  ⟨(readBody_boundary resp500 3 emptyWorld).1 (by decide) (by decide),
   (readBody_boundary resp500 2 emptyWorld).2.1 (by decide) (by decide),
   (readBody_boundary resp500 0 emptyWorld).2.2 (by decide)⟩

/-- C4 counterexample: in the leaked-body scenario the retry policy
retries past the 500 response, whose body stream (id 0) was handed out by
the requestor; at the end of the call stream 0 is still unclosed (only the
captured 200 body, stream 1, was closed by readBody), so an attempt's body
is neither drained nor closed before the next dispatch or the return. -/
theorem retried_past_body_left_open :
    DoTrace leakEnv getReq (some retry5xx) none 100 emptyWorld
      = (some { request := some getReq, requestTrace := [65],
                response := some resp200b, responseTrace := [72],
                responseBody := [111, 107],
                startTime := 3, endTime := 7, retries := 1 },
         none, 2, { opened := [0, 1], closed := [1] })
    ∧ 0 ∈ (DoTrace leakEnv getReq (some retry5xx) none 100 emptyWorld).2.2.2.opened
    ∧ 0 ∉ (DoTrace leakEnv getReq (some retry5xx) none 100 emptyWorld).2.2.2.closed := by
  decide

/-- C4 amended: the response body read during trace capture is closed by
readBody on every one of its exit paths (success, size-exceeded failure,
and the unbounded read), before the call returns; the retry loop itself
closes nothing, so the body of a response the policy retries past stays
open (see the counterexample). -/
theorem readBody_closes_every_path (resp : Response) (maxB : Int) (w : World) :
    (readBody resp maxB w).2.closed = w.closed ++ [resp.bodyId] := by
  simp only [readBody]
  split
  · split <;> rfl
  · rfl

/-- C7: a DoTrace call whose response body exceeds a positive limit (for
instance limit 10 against an 11-byte body) returns the size-exceeded
error together with a trace that still carries the request dump, the
response, the response header dump, both timestamps and the retry count,
but an empty response body; a header-dump failure likewise returns the
partially populated trace alongside the error. -/
theorem dotrace_partial_trace_on_capture_error (env : Env) (req : Request)
    (rc : Option RetryConfig) (ac : Option AccessConfig) (w : World)
    (rt : List Nat) (resp : Response) (k n : Nat) (w1 : World) :
    (∀ hdrs : List Nat,
      env.dumpRequestOut req = .ok rt →
      doCall env req rc ac w = (.ok resp, k, n, w1) →
      env.dumpResponseHead resp = .ok hdrs →
      resp.body.length = 11 →
      DoTrace env req rc ac 10 w
        = (some { request := some req, requestTrace := rt,
                  response := some resp, responseTrace := hdrs,
                  responseBody := [],
                  startTime := env.now0, endTime := env.now1, retries := k },
           some (exceedsMsg 10), n,
           { w1 with closed := w1.closed ++ [resp.bodyId] }))
    ∧ (∀ e : GoError,
        env.dumpRequestOut req = .ok rt →
        doCall env req rc ac w = (.ok resp, k, n, w1) →
        env.dumpResponseHead resp = .error e →
        DoTrace env req rc ac 10 w
          = (some { request := some req, requestTrace := rt,
                    response := some resp, responseTrace := [],
                    responseBody := [],
                    startTime := env.now0, endTime := env.now1, retries := k },
             some e, n, w1)) := by
  constructor
  · intro hdrs hdump hdo hhead hlen
    have hrb := readBody_err_of_gt resp 10 w1 (by omega) (by omega)
    simp [DoTrace, hdump, hdo, dumpResponse, hhead, hrb]
  · intro e hdump hdo hhead
    simp [DoTrace, hdump, hdo, dumpResponse, hhead]

/-- C9: when dumping the outgoing request fails at the start of DoTrace,
the call returns a nil trace together with the dump error, and the
requestor is never invoked (no invocations, no body stream handed out). -/
theorem dotrace_nil_trace_on_dump_error (env : Env) (req : Request)
    (rc : Option RetryConfig) (ac : Option AccessConfig) (maxB : Int)
    (w : World) (e : GoError) (h : env.dumpRequestOut req = .error e) :
    DoTrace env req rc ac maxB w = (none, some e, 0, w) := by
  simp [DoTrace, h]

theorem dotrace_nil_trace_on_dump_error_witness :
    DoTrace dumpFailEnv getReq none none 10 emptyWorld
      = (none, some dumpErr, 0, emptyWorld) :=
  dotrace_nil_trace_on_dump_error dumpFailEnv getReq none none 10 emptyWorld dumpErr rfl

theorem dotrace_partial_trace_on_capture_error_witness :
    DoTrace bigBodyEnv getReq none none 10 emptyWorld
      = (some { request := some getReq, requestTrace := [82],
                response := some resp11, responseTrace := [72, 13, 10],
                responseBody := [],
                startTime := 1, endTime := 2, retries := 0 },
         some (exceedsMsg 10), 1, { opened := [5], closed := [5] }) :=
  (dotrace_partial_trace_on_capture_error bigBodyEnv getReq none none emptyWorld
      [82] resp11 0 1 { opened := [5], closed := [] }).1
    [72, 13, 10] rfl (by decide) rfl (by decide)

/-! UTF-8 machinery lemmas and the sanitizer claims. -/

theorem cont_lb {b : Nat} (h : cont b = true) : 128 ≤ b := by
  unfold cont at h
  simp only [Bool.and_eq_true, decide_eq_true_eq] at h
  omega

theorem cont2_lb {b0 b1 : Nat} (h : cont2 b0 b1 = true) : 128 ≤ b1 := by
  unfold cont2 at h
  simp only [Bool.and_eq_true, decide_eq_true_eq] at h
  have hlo : 128 ≤ lo3 b0 := by
    unfold lo3
    split <;> omega
  omega

theorem cont4_lb {b0 b1 : Nat} (h : cont4 b0 b1 = true) : 128 ≤ b1 := by
  unfold cont4 at h
  simp only [Bool.and_eq_true, decide_eq_true_eq] at h
  have hlo : 128 ≤ lo4 b0 := by
    unfold lo4
    split <;> omega
  omega

theorem acc2_ex {tl : List Nat} (h : acc2 tl = true) :
    ∃ b1 tl1, tl = b1 :: tl1 ∧ cont b1 = true := by
  match tl, h with
  | b1 :: tl1, h => exact ⟨b1, tl1, rfl, h⟩
  | [], h => exact absurd h (by simp [acc2])

theorem acc3_ex {b0 : Nat} {tl : List Nat} (h : acc3 b0 tl = true) :
    ∃ b1 b2 tl2, tl = b1 :: b2 :: tl2 ∧ cont2 b0 b1 = true ∧ cont b2 = true := by
  match tl, h with
  | b1 :: b2 :: tl2, h =>
    simp only [acc3, Bool.and_eq_true] at h
    exact ⟨b1, b2, tl2, rfl, h.1, h.2⟩
  | [], h => exact absurd h (by simp [acc3])
  | [b1], h => exact absurd h (by simp [acc3])

theorem acc4_ex {b0 : Nat} {tl : List Nat} (h : acc4 b0 tl = true) :
    ∃ b1 b2 b3 tl3, tl = b1 :: b2 :: b3 :: tl3
      ∧ cont4 b0 b1 = true ∧ cont b2 = true ∧ cont b3 = true := by
  match tl, h with
  | b1 :: b2 :: b3 :: tl3, h =>
    simp only [acc4, Bool.and_eq_true] at h
    exact ⟨b1, b2, b3, tl3, rfl, h.1.1, h.1.2, h.2⟩
  | [], h => exact absurd h (by simp [acc4])
  | [b1], h => exact absurd h (by simp [acc4])
  | [b1, b2], h => exact absurd h (by simp [acc4])

theorem utf8Valid_complete {l : List Nat} (h : ValidUTF8 l) : utf8Valid l = true := by
  unfold utf8Valid
  induction h with
  | nil => rfl
  | one h1 _ ih =>
    simp only [utf8ValidAux, if_pos h1]
    exact ih
  | @two b0 b1 tl h1 h2 h3 _ ih =>
    simp only [utf8ValidAux]
    rw [if_neg (by omega), if_pos ⟨by omega, by omega, by simp [acc2, h3]⟩]
    exact ih
  | @three b0 b1 b2 tl h1 h2 h3 h4 _ ih =>
    simp only [utf8ValidAux]
    rw [if_neg (by omega), if_neg (by rintro ⟨u, v, w⟩; omega),
        if_pos ⟨by omega, by omega, by simp [acc3, h3, h4]⟩]
    exact ih
  | @four b0 b1 b2 b3 tl h1 h2 h3 h4 h5 _ ih =>
    simp only [utf8ValidAux]
    rw [if_neg (by omega), if_neg (by rintro ⟨u, v, w⟩; omega),
        if_neg (by rintro ⟨u, v, w⟩; omega),
        if_pos ⟨by omega, by omega, by simp [acc4, h3, h4, h5]⟩]
    exact ih

theorem utf8ValidAux_sound :
    ∀ (n : Nat) (l : List Nat), l.length ≤ n → utf8ValidAux l 0 = true → ValidUTF8 l := by
  intro n
  induction n with
  | zero =>
    intro l hl _
    have hnil : l = [] := List.eq_nil_of_length_eq_zero (by omega)
    subst hnil
    exact .nil
  | succ n ih =>
    intro l hl hv
    match l with
    | [] => exact .nil
    | b0 :: tl =>
      by_cases h1 : b0 ≤ 127
      · simp only [utf8ValidAux, if_pos h1] at hv
        exact .one h1 (ih tl (by simp at hl; omega) hv)
      · by_cases h2 : 194 ≤ b0 ∧ b0 ≤ 223 ∧ acc2 tl = true
        · obtain ⟨b1, tl1, rfl, hc⟩ := acc2_ex h2.2.2
          simp only [utf8ValidAux, if_neg h1, if_pos h2] at hv
          exact .two h2.1 h2.2.1 hc (ih tl1 (by simp at hl; omega) hv)
        · by_cases h3 : 224 ≤ b0 ∧ b0 ≤ 239 ∧ acc3 b0 tl = true
          · obtain ⟨b1, b2, tl2, rfl, hc1, hc2⟩ := acc3_ex h3.2.2
            simp only [utf8ValidAux, if_neg h1, if_neg h2, if_pos h3] at hv
            exact .three h3.1 h3.2.1 hc1 hc2 (ih tl2 (by simp at hl; omega) hv)
          · by_cases h4 : 240 ≤ b0 ∧ b0 ≤ 244 ∧ acc4 b0 tl = true
            · obtain ⟨b1, b2, b3, tl3, rfl, hc1, hc2, hc3⟩ := acc4_ex h4.2.2
              simp only [utf8ValidAux, if_neg h1, if_neg h2, if_neg h3, if_pos h4] at hv
              exact .four h4.1 h4.2.1 hc1 hc2 hc3 (ih tl3 (by simp at hl; omega) hv)
            · simp only [utf8ValidAux, if_neg h1, if_neg h2, if_neg h3, if_neg h4] at hv
              exact absurd hv (by simp)

theorem utf8Valid_sound {l : List Nat} (h : utf8Valid l = true) : ValidUTF8 l :=
  utf8ValidAux_sound l.length l le_rfl h

theorem ValidUTF8.append {a b : List Nat} (ha : ValidUTF8 a) (hb : ValidUTF8 b) :
    ValidUTF8 (a ++ b) := by
  induction ha with
  | nil => simpa using hb
  | one h1 _ ih => exact .one h1 ih
  | two h1 h2 h3 _ ih => exact .two h1 h2 h3 ih
  | three h1 h2 h3 h4 _ ih => exact .three h1 h2 h3 h4 ih
  | four h1 h2 h3 h4 h5 _ ih => exact .four h1 h2 h3 h4 h5 ih

theorem ValidUTF8.split_at_ascii {s : List Nat} (h : ValidUTF8 s) :
    ∀ (a : List Nat) (c : Nat) (rest : List Nat), s = a ++ c :: rest → c ≤ 127 →
      ValidUTF8 a ∧ ValidUTF8 (c :: rest) := by
  induction h with
  | nil =>
    intro a c rest he _
    exact absurd he (by simp)
  | @one b0 tl h1 h2 ih =>
    intro a c rest he hc
    cases a with
    | nil =>
      simp only [List.nil_append, List.cons.injEq] at he
      obtain ⟨rfl, rfl⟩ := he
      exact ⟨.nil, .one h1 h2⟩
    | cons x a1 =>
      simp only [List.cons_append, List.cons.injEq] at he
      obtain ⟨rfl, he2⟩ := he
      obtain ⟨hA, hB⟩ := ih a1 c rest he2 hc
      exact ⟨.one h1 hA, hB⟩
  | @two b0 b1 tl h1 h2 h3 h4 ih =>
    intro a c rest he hc
    cases a with
    | nil =>
      simp only [List.nil_append, List.cons.injEq] at he
      obtain ⟨rfl, _⟩ := he
      omega
    | cons x a1 =>
      simp only [List.cons_append, List.cons.injEq] at he
      obtain ⟨rfl, he2⟩ := he
      cases a1 with
      | nil =>
        simp only [List.nil_append, List.cons.injEq] at he2
        obtain ⟨rfl, _⟩ := he2
        have := cont_lb h3
        omega
      | cons y a2 =>
        simp only [List.cons_append, List.cons.injEq] at he2
        obtain ⟨rfl, he3⟩ := he2
        obtain ⟨hA, hB⟩ := ih a2 c rest he3 hc
        exact ⟨.two h1 h2 h3 hA, hB⟩
  | @three b0 b1 b2 tl h1 h2 h3 h4 h5 ih =>
    intro a c rest he hc
    cases a with
    | nil =>
      simp only [List.nil_append, List.cons.injEq] at he
      obtain ⟨rfl, _⟩ := he
      omega
    | cons x a1 =>
      simp only [List.cons_append, List.cons.injEq] at he
      obtain ⟨rfl, he2⟩ := he
      cases a1 with
      | nil =>
        simp only [List.nil_append, List.cons.injEq] at he2
        obtain ⟨rfl, _⟩ := he2
        have := cont2_lb h3
        omega
      | cons y a2 =>
        simp only [List.cons_append, List.cons.injEq] at he2
        obtain ⟨rfl, he3⟩ := he2
        cases a2 with
        | nil =>
          simp only [List.nil_append, List.cons.injEq] at he3
          obtain ⟨rfl, _⟩ := he3
          have := cont_lb h4
          omega
        | cons z a3 =>
          simp only [List.cons_append, List.cons.injEq] at he3
          obtain ⟨rfl, he4⟩ := he3
          obtain ⟨hA, hB⟩ := ih a3 c rest he4 hc
          exact ⟨.three h1 h2 h3 h4 hA, hB⟩
  | @four b0 b1 b2 b3 tl h1 h2 h3 h4 h5 h6 ih =>
    intro a c rest he hc
    cases a with
    | nil =>
      simp only [List.nil_append, List.cons.injEq] at he
      obtain ⟨rfl, _⟩ := he
      omega
    | cons x a1 =>
      simp only [List.cons_append, List.cons.injEq] at he
      obtain ⟨rfl, he2⟩ := he
      cases a1 with
      | nil =>
        simp only [List.nil_append, List.cons.injEq] at he2
        obtain ⟨rfl, _⟩ := he2
        have := cont4_lb h3
        omega
      | cons y a2 =>
        simp only [List.cons_append, List.cons.injEq] at he2
        obtain ⟨rfl, he3⟩ := he2
        cases a2 with
        | nil =>
          simp only [List.nil_append, List.cons.injEq] at he3
          obtain ⟨rfl, _⟩ := he3
          have := cont_lb h4
          omega
        | cons z a3 =>
          simp only [List.cons_append, List.cons.injEq] at he3
          obtain ⟨rfl, he4⟩ := he3
          cases a3 with
          | nil =>
            simp only [List.nil_append, List.cons.injEq] at he4
            obtain ⟨rfl, _⟩ := he4
            have := cont_lb h5
            omega
          | cons u a4 =>
            simp only [List.cons_append, List.cons.injEq] at he4
            obtain ⟨rfl, he5⟩ := he4
            obtain ⟨hA, hB⟩ := ih a4 c rest he5 hc
            exact ⟨.four h1 h2 h3 h4 h5 hA, hB⟩

theorem validUTF8_cons_ascii {c : Nat} {l : List Nat} (hc : c ≤ 127) :
    ValidUTF8 (c :: l) ↔ ValidUTF8 l := by
  constructor
  · intro h
    cases h with
    | one _ h2 => exact h2
    | two h1 _ _ _ => omega
    | three h1 _ _ _ _ => omega
    | four h1 _ _ _ _ _ => omega
  · exact .one hc

theorem toValidUTF8Go_valid (repl : List Nat) (hr : ValidUTF8 repl) :
    ∀ (n : Nat) (s : List Nat) (invalid : Bool), s.length ≤ n →
      ValidUTF8 (toValidUTF8Go repl s 0 invalid) := by
  intro n
  induction n with
  | zero =>
    intro s invalid hl
    have hnil : s = [] := List.eq_nil_of_length_eq_zero (by omega)
    subst hnil
    exact .nil
  | succ n ih =>
    intro s invalid hl
    match s with
    | [] => exact .nil
    | b0 :: tl =>
      by_cases h1 : b0 ≤ 127
      · simp only [toValidUTF8Go, if_pos h1]
        exact .one h1 (ih tl false (by simp at hl; omega))
      · by_cases h2 : 194 ≤ b0 ∧ b0 ≤ 223 ∧ acc2 tl = true
        · obtain ⟨b1, tl1, rfl, hc⟩ := acc2_ex h2.2.2
          simp only [toValidUTF8Go, if_neg h1, if_pos h2]
          exact .two h2.1 h2.2.1 hc (ih tl1 false (by simp at hl; omega))
        · by_cases h3 : 224 ≤ b0 ∧ b0 ≤ 239 ∧ acc3 b0 tl = true
          · obtain ⟨b1, b2, tl2, rfl, hc1, hc2⟩ := acc3_ex h3.2.2
            simp only [toValidUTF8Go, if_neg h1, if_neg h2, if_pos h3]
            exact .three h3.1 h3.2.1 hc1 hc2 (ih tl2 false (by simp at hl; omega))
          · by_cases h4 : 240 ≤ b0 ∧ b0 ≤ 244 ∧ acc4 b0 tl = true
            · obtain ⟨b1, b2, b3, tl3, rfl, hc1, hc2, hc3⟩ := acc4_ex h4.2.2
              simp only [toValidUTF8Go, if_neg h1, if_neg h2, if_neg h3, if_pos h4]
              exact .four h4.1 h4.2.1 hc1 hc2 hc3 (ih tl3 false (by simp at hl; omega))
            · simp only [toValidUTF8Go, if_neg h1, if_neg h2, if_neg h3, if_neg h4]
              by_cases hi : invalid = true
              · rw [if_pos hi]
                exact ih tl true (by simp at hl; omega)
              · rw [if_neg hi]
                exact hr.append (ih tl true (by simp at hl; omega))

theorem toValidUTF8Go_id (repl : List Nat) {s : List Nat} (h : ValidUTF8 s) :
    ∀ invalid : Bool, toValidUTF8Go repl s 0 invalid = s := by
  induction h with
  | nil => intro invalid; rfl
  | @one b0 tl h1 _ ih =>
    intro invalid
    simp only [toValidUTF8Go, if_pos h1]
    rw [ih false]
  | @two b0 b1 tl h1 h2 h3 _ ih =>
    intro invalid
    simp only [toValidUTF8Go]
    rw [if_neg (by omega), if_pos ⟨by omega, by omega, by simp [acc2, h3]⟩, ih false]
  | @three b0 b1 b2 tl h1 h2 h3 h4 _ ih =>
    intro invalid
    simp only [toValidUTF8Go]
    rw [if_neg (by omega), if_neg (by rintro ⟨u, v, w⟩; omega),
        if_pos ⟨by omega, by omega, by simp [acc3, h3, h4]⟩, ih false]
  | @four b0 b1 b2 b3 tl h1 h2 h3 h4 h5 _ ih =>
    intro invalid
    simp only [toValidUTF8Go]
    rw [if_neg (by omega), if_neg (by rintro ⟨u, v, w⟩; omega),
        if_neg (by rintro ⟨u, v, w⟩; omega),
        if_pos ⟨by omega, by omega, by simp [acc4, h3, h4, h5]⟩, ih false]

theorem replacementChar_valid : ValidUTF8 replacementChar :=
  utf8Valid_sound (by decide)

theorem replaceNullChars_id {s : List Nat} (h : ∀ b ∈ s, b ≠ 0) :
    replaceNullChars s = s := by
  induction s with
  | nil => rfl
  | cons b tl ih =>
    have hb : b ≠ 0 := h b (by simp)
    simp only [replaceNullChars, if_neg hb]
    rw [ih (fun x hx => h x (by simp [hx]))]

theorem replaceNullChars_no_null (s : List Nat) : ∀ b ∈ replaceNullChars s, b ≠ 0 := by
  induction s with
  | nil => simp [replaceNullChars]
  | cons b tl ih =>
    by_cases hb : b = 0
    · subst hb
      simp only [replaceNullChars, if_pos rfl]
      intro x hx
      rcases List.mem_cons.mp hx with rfl | hx
      · omega
      rcases List.mem_cons.mp hx with rfl | hx
      · omega
      rcases List.mem_cons.mp hx with rfl | hx
      · omega
      exact ih x hx
    · simp only [replaceNullChars, if_neg hb]
      intro x hx
      rcases List.mem_cons.mp hx with rfl | hx
      · exact hb
      · exact ih x hx

theorem replaceNullChars_valid {s : List Nat} (h : ValidUTF8 s) :
    ValidUTF8 (replaceNullChars s) := by
  induction h with
  | nil => exact .nil
  | @one b0 tl h1 _ ih =>
    by_cases hb : b0 = 0
    · subst hb
      simp only [replaceNullChars, if_pos rfl]
      exact .three (by omega) (by omega) (by decide) (by decide) ih
    · simp only [replaceNullChars, if_neg hb]
      exact .one h1 ih
  | @two b0 b1 tl h1 h2 h3 _ ih =>
    have hb0 : b0 ≠ 0 := by omega
    have hb1 : b1 ≠ 0 := by have := cont_lb h3; omega
    simp only [replaceNullChars, if_neg hb0, if_neg hb1]
    exact .two h1 h2 h3 ih
  | @three b0 b1 b2 tl h1 h2 h3 h4 _ ih =>
    have hb0 : b0 ≠ 0 := by omega
    have hb1 : b1 ≠ 0 := by have := cont2_lb h3; omega
    have hb2 : b2 ≠ 0 := by have := cont_lb h4; omega
    simp only [replaceNullChars, if_neg hb0, if_neg hb1, if_neg hb2]
    exact .three h1 h2 h3 h4 ih
  | @four b0 b1 b2 b3 tl h1 h2 h3 h4 h5 _ ih =>
    have hb0 : b0 ≠ 0 := by omega
    have hb1 : b1 ≠ 0 := by have := cont4_lb h3; omega
    have hb2 : b2 ≠ 0 := by have := cont_lb h4; omega
    have hb3 : b3 ≠ 0 := by have := cont_lb h5; omega
    simp only [replaceNullChars, if_neg hb0, if_neg hb1, if_neg hb2, if_neg hb3]
    exact .four h1 h2 h3 h4 h5 ih

theorem santizedTrace_clean (header body ph : List Nat)
    (hh : ValidUTF8 header) (hhn : ∀ b ∈ header, b ≠ 0)
    (hb : utf8Valid body = true) (hbn : ∀ b ∈ body, b ≠ 0) :
    santizedTrace header body ph = header ++ body := by
  unfold santizedTrace toValidUTF8
  rw [toValidUTF8Go_id replacementChar hh false, replaceNullChars_id hhn,
      if_pos hb, replaceNullChars_id hbn]

theorem santizedTrace_text_safe (header body ph : List Nat)
    (hv : utf8Valid ph = true) (hn : ∀ b ∈ ph, b ≠ 0) :
    utf8Valid (santizedTrace header body ph) = true
      ∧ ∀ b ∈ santizedTrace header body ph, b ≠ 0 := by
  have hhv : ValidUTF8 (replaceNullChars (toValidUTF8 header replacementChar)) :=
    replaceNullChars_valid
      (toValidUTF8Go_valid replacementChar replacementChar_valid header.length header false le_rfl)
  have hhn := replaceNullChars_no_null (toValidUTF8 header replacementChar)
  unfold santizedTrace
  by_cases hb : utf8Valid body = true
  · rw [if_pos hb]
    constructor
    · exact utf8Valid_complete
        (hhv.append (replaceNullChars_valid (utf8Valid_sound hb)))
    · intro x hx
      rcases List.mem_append.mp hx with hx | hx
      · exact hhn x hx
      · exact replaceNullChars_no_null body x hx
  · rw [if_neg hb]
    constructor
    · exact utf8Valid_complete (hhv.append (utf8Valid_sound hv))
    · intro x hx
      rcases List.mem_append.mp hx with hx | hx
      · exact hhn x hx
      · exact hn x hx

theorem splitN2crlf_some :
    ∀ (s b : List Nat), (splitN2crlf s).2 = some b →
      (splitN2crlf s).1 ++ crlfcrlf ++ b = s := by
  intro s
  induction s with
  | nil =>
    intro b hb
    simp [splitN2crlf] at hb
  | cons x rest ih =>
    intro b hb
    by_cases h : x = 13 ∧ rest.take 3 = [10, 13, 10]
    · simp only [splitN2crlf, if_pos h] at hb ⊢
      obtain ⟨rfl, ht⟩ := h
      obtain rfl : rest.drop 3 = b := Option.some.inj hb
      show crlfcrlf ++ rest.drop 3 = 13 :: rest
      conv_rhs => rw [← List.take_append_drop 3 rest]
      rw [ht]
      rfl
    · simp only [splitN2crlf, if_neg h] at hb ⊢
      rw [List.cons_append, List.cons_append, ih b hb]

theorem splitN2crlf_none :
    ∀ s : List Nat, (splitN2crlf s).2 = none → (splitN2crlf s).1 = s := by
  intro s
  induction s with
  | nil =>
    intro _
    rfl
  | cons x rest ih =>
    intro hb
    by_cases h : x = 13 ∧ rest.take 3 = [10, 13, 10]
    · simp [splitN2crlf, if_pos h] at hb
    · simp only [splitN2crlf, if_neg h] at hb ⊢
      rw [ih hb]

theorem crlfcrlf_valid : ValidUTF8 crlfcrlf :=
  utf8Valid_sound (by decide)

theorem crlfcrlf_no_null : ∀ b ∈ crlfcrlf, b ≠ 0 := by decide

/-- C5 counterexample: santizedTrace copies the caller's placeholder into
the output verbatim, so with the non-UTF-8 body 0x89 0x50 0x4E 0x47 a
placeholder consisting of one null byte puts a null byte into the
sanitized output, and the placeholder 0x80 makes the output invalid
UTF-8 - the claim fails for those placeholder strings. -/
theorem sanitized_null_placeholder_not_safe :
    0 ∈ Trace.SanitizedResponse binTrace [0]
      ∧ utf8Valid (Trace.SanitizedResponse binTrace [128]) = false := by
  decide

/-- C5 amended: for every captured header byte sequence and every body
byte sequence (including invalid UTF-8 and embedded null bytes), and
every placeholder that is itself valid UTF-8 and free of null bytes, the
strings returned by SanitizedRequest and SanitizedResponse contain no
null bytes and are valid UTF-8. -/
theorem sanitized_output_text_safe (t : Trace) (ph : List Nat)
    (hv : utf8Valid ph = true) (hn : ∀ b ∈ ph, b ≠ 0) :
    (utf8Valid (t.SanitizedRequest ph) = true
        ∧ ∀ b ∈ t.SanitizedRequest ph, b ≠ 0)
    ∧ (utf8Valid (t.SanitizedResponse ph) = true
        ∧ ∀ b ∈ t.SanitizedResponse ph, b ≠ 0) := by
  unfold Trace.SanitizedRequest Trace.SanitizedResponse
  exact ⟨santizedTrace_text_safe _ _ ph hv hn, santizedTrace_text_safe _ _ ph hv hn⟩

theorem sanitized_output_text_safe_witness :
    utf8Valid (Trace.SanitizedResponse binTrace [91, 98, 105, 110]) = true :=
  (sanitized_output_text_safe binTrace [91, 98, 105, 110] (by decide) (by decide)).2.1

/-- C6: for a trace whose captured bytes are already valid UTF-8 and
contain no null bytes, sanitizing returns the content unchanged apart
from rejoining header and body at the blank-line separator: the sanitized
response is exactly the captured header dump followed by the body bytes,
and the sanitized request equals the original dump whenever the dump
contains the separator; when it does not, the whole dump is treated as
the header section (which the code always terminates with the separator)
with an empty body. -/
theorem sanitize_clean_trace_unchanged (t : Trace) (ph : List Nat)
    (h1 : utf8Valid t.requestTrace = true) (h2 : ∀ b ∈ t.requestTrace, b ≠ 0)
    (h3 : utf8Valid t.responseTrace = true) (h4 : ∀ b ∈ t.responseTrace, b ≠ 0)
    (h5 : utf8Valid t.responseBody = true) (h6 : ∀ b ∈ t.responseBody, b ≠ 0) :
    t.SanitizedResponse ph = t.responseTrace ++ t.responseBody
    ∧ (∀ b : List Nat, (splitN2crlf t.requestTrace).2 = some b →
        t.SanitizedRequest ph = t.requestTrace)
    ∧ ((splitN2crlf t.requestTrace).2 = none →
        t.SanitizedRequest ph = t.requestTrace ++ crlfcrlf) := by
  refine ⟨?_, ?_, ?_⟩
  · unfold Trace.SanitizedResponse
    exact santizedTrace_clean _ _ ph (utf8Valid_sound h3) h4 h5 h6
  · intro b hb
    have heq := splitN2crlf_some t.requestTrace b hb
    have hvr : ValidUTF8 t.requestTrace := utf8Valid_sound h1
    have hsplit := hvr.split_at_ascii ((splitN2crlf t.requestTrace).1) 13
      (10 :: 13 :: 10 :: b) (heq.symm.trans (by simp [crlfcrlf])) (by omega)
    have hb_valid : ValidUTF8 b :=
      (validUTF8_cons_ascii (by omega)).mp
        ((validUTF8_cons_ascii (by omega)).mp
          ((validUTF8_cons_ascii (by omega)).mp
            ((validUTF8_cons_ascii (by omega)).mp hsplit.2)))
    have hmem : ∀ x ∈ (splitN2crlf t.requestTrace).1 ++ crlfcrlf, x ≠ 0 := by
      intro x hx
      rcases List.mem_append.mp hx with hx | hx
      · apply h2
        rw [← heq]
        simp [hx]
      · exact crlfcrlf_no_null x hx
    have hbodyn : ∀ x ∈ b, x ≠ 0 := by
      intro x hx
      apply h2
      rw [← heq]
      simp [hx]
    simp only [Trace.SanitizedRequest, hb]
    rw [santizedTrace_clean _ _ ph (hsplit.1.append crlfcrlf_valid) hmem
        (utf8Valid_complete hb_valid) hbodyn]
    exact heq
  · intro hnone
    have heq := splitN2crlf_none t.requestTrace hnone
    have hclean := santizedTrace_clean (t.requestTrace ++ crlfcrlf) [] ph
        ((utf8Valid_sound h1).append crlfcrlf_valid)
        (by
          intro x hx
          rcases List.mem_append.mp hx with hx | hx
          · exact h2 x hx
          · exact crlfcrlf_no_null x hx)
        (by decide) (fun x hx => absurd hx (List.not_mem_nil x))
    simp only [Trace.SanitizedRequest, hnone]
    rw [heq, hclean]
    exact List.append_nil _

theorem sanitize_clean_trace_unchanged_witness :
    Trace.SanitizedResponse cleanTrace [91]
        = cleanTrace.responseTrace ++ cleanTrace.responseBody
      ∧ Trace.SanitizedRequest cleanTrace [91] = cleanTrace.requestTrace := by
  have h := sanitize_clean_trace_unchanged cleanTrace [91]
    (by decide) (by decide) (by decide) (by decide) (by decide) (by decide)
  exact ⟨h.1, h.2.1 [104, 105] (by decide)⟩

/-- C8: when the response body is not valid UTF-8 (for example a PNG
image), SanitizedResponse returns the sanitized response headers followed
by exactly the placeholder string in place of the body bytes - and the
headers verbatim when they are clean text; when the body is valid UTF-8
it is included verbatim apart from null-byte replacement. -/
theorem sanitized_response_binary_placeholder (t : Trace) (ph : List Nat) :
    (utf8Valid t.responseBody = false →
      t.SanitizedResponse ph
          = replaceNullChars (toValidUTF8 t.responseTrace replacementChar) ++ ph
        ∧ (utf8Valid t.responseTrace = true → (∀ b ∈ t.responseTrace, b ≠ 0) →
            t.SanitizedResponse ph = t.responseTrace ++ ph))
    ∧ (utf8Valid t.responseBody = true →
        t.SanitizedResponse ph
          = replaceNullChars (toValidUTF8 t.responseTrace replacementChar)
              ++ replaceNullChars t.responseBody) := by
  constructor
  · intro hb
    constructor
    · unfold Trace.SanitizedResponse santizedTrace
      rw [if_neg (by simp [hb])]
    · intro hh hn
      unfold Trace.SanitizedResponse santizedTrace toValidUTF8
      rw [if_neg (by simp [hb]), toValidUTF8Go_id _ (utf8Valid_sound hh) false,
          replaceNullChars_id hn]
  · intro hb
    unfold Trace.SanitizedResponse santizedTrace
    rw [if_pos hb]

theorem sanitized_response_binary_placeholder_witness :
    Trace.SanitizedResponse binTrace [91, 98, 105, 110, 97, 114, 121, 93]
      = binTrace.responseTrace ++ [91, 98, 105, 110, 97, 114, 121, 93] :=
  ((sanitized_response_binary_placeholder binTrace
      [91, 98, 105, 110, 97, 114, 121, 93]).1 (by decide)).2 (by decide) (by decide)

end Httpx
